import Mathlib

/-!
Verification of the chat-reply rendering pipeline and model-invocation
policy of the PS-RISK-AI repository.

The client-side renderer (escapeHtml, sanitizeUrl, formatInline,
markdownToHtml, limitMarkdown, formatReply, removeFormalPreface,
sendMessage) and the server-side invocation policy (callGemini fallback
logic, extractTextFromParts, the /api/chat success handling) are embedded
as pure Lean functions over `List Char` / `String`, mirroring the
JavaScript source line by line.  JavaScript strings are modelled as
`List Char` (sequences of code points); regular expressions used by the
source are deterministic (each one is an alternation of patterns of the
form DELIM [^d]+ DELIM), so they are translated to explicit scanners.
-/

namespace PSRisk

/-- Characters written via code to keep the development ASCII-clean. -/
def quoteChar : Char := Char.ofNat 34

def aposChar : Char := Char.ofNat 39

def btick : Char := Char.ofNat 96

/-- The whitespace class used by the JS source (`\s`, `trim`, `trimEnd`,
`trimStart`): ASCII whitespace plus NBSP and BOM.  (JS additionally
matches rare Unicode space separators, which are immaterial here.) -/
def jsSpace (c : Char) : Bool :=
  c = ' ' || c = '\t' || c = '\n' || c = '\r' ||
  c = Char.ofNat 11 || c = Char.ofNat 12 || c = Char.ofNat 160 || c = Char.ofNat 65279

/-- JS `str.replace(/\s+$/, "")` and `trimEnd()`: drop the maximal
whitespace suffix. -/
def trimTrail (cs : List Char) : List Char :=
  (cs.reverse.dropWhile jsSpace).reverse

/-- JS `str.trim()`. -/
def trimBoth (cs : List Char) : List Char :=
  (trimTrail cs).dropWhile jsSpace

def trimStr (s : String) : String :=
  String.mk (trimBoth s.data)

/-- Case folding performed by the `/i` regex flag (ASCII letters). -/
def jsLower (cs : List Char) : List Char :=
  cs.map Char.toLower

/-- `escapeHtml` replaces `&` by `&amp;` first and then `<`, `>`, `"`, `'`
by their entities.  Because no replacement string contains a character
replaced by a later step, the five sequential global replaces of the
source are equivalent to this single per-character expansion. -/
def escChar (c : Char) : List Char :=
  if c = '&' then "&amp;".data
  else if c = '<' then "&lt;".data
  else if c = '>' then "&gt;".data
  else if c = quoteChar then "&quot;".data
  else if c = aposChar then "&#39;".data
  else [c]

def escapeHtmlCore (cs : List Char) : List Char :=
  (cs.map escChar).flatten

def escapeHtml (s : String) : String :=
  String.mk (escapeHtmlCore s.data)

/-- The test of `/^(https?:|mailto:)/i` on an already lower-cased string:
the regex engine accepts exactly the strings having one of the three
scheme prefixes. -/
def schemeTest : List Char → Bool
  | 'h' :: 't' :: 't' :: 'p' :: ':' :: _ => true
  | 'h' :: 't' :: 't' :: 'p' :: 's' :: ':' :: _ => true
  | 'm' :: 'a' :: 'i' :: 'l' :: 't' :: 'o' :: ':' :: _ => true
  | _ => false

/-- `sanitizeUrl`: trim, accept only http/https/mailto (case-insensitive),
otherwise return the placeholder `#`. -/
def sanitizeUrlCore (url : List Char) : List Char :=
  if schemeTest (jsLower (trimBoth url)) then escapeHtmlCore (trimBoth url)
  else "#".data

def sanitizeUrl (url : String) : String :=
  String.mk (sanitizeUrlCore url.data)

/-- Inline tokens produced by the `formatInline` regex scan. -/
inductive Tok where
  | text : List Char → Tok
  | strong : List Char → Tok
  | em : List Char → Tok
  | code : List Char → Tok
  | link : List Char → List Char → Tok

/-- Matcher for `DD[^d]+DD` (the `\*\*[^*]+\*\*` and `__[^_]+__`
alternatives).  The inner class excludes the delimiter, so the regex
match at a given position is deterministic: the inner run is the maximal
run of non-delimiter characters and must be followed by the closing
double delimiter. -/
def matchDouble (d : Char) : List Char → Option (List Char × List Char)
  | a :: b :: rest =>
    if a = d ∧ b = d then
      let inner := rest.takeWhile (fun c => c ≠ d)
      let rest2 := rest.dropWhile (fun c => c ≠ d)
      if inner.isEmpty then none
      else
        match rest2 with
        | x :: y :: rest3 => if x = d ∧ y = d then some (inner, rest3) else none
        | _ => none
    else none
  | _ => none

/-- Matcher for `D[^d]+D` (the `\*[^\*]+\*`, `_[^_]+_` and
backtick-code alternatives). -/
def matchSingle (d : Char) : List Char → Option (List Char × List Char)
  | a :: rest =>
    if a = d then
      let inner := rest.takeWhile (fun c => c ≠ d)
      let rest2 := rest.dropWhile (fun c => c ≠ d)
      if inner.isEmpty then none
      else
        match rest2 with
        | x :: rest3 => if x = d then some (inner, rest3) else none
        | _ => none
    else none
  | _ => none

/-- Matcher for `\[[^\]]+\]\([^)]+\)`. -/
def matchLink : List Char → Option ((List Char × List Char) × List Char)
  | '[' :: rest =>
    let label := rest.takeWhile (fun c => c ≠ ']')
    let rest2 := rest.dropWhile (fun c => c ≠ ']')
    if label.isEmpty then none
    else
      match rest2 with
      | ']' :: '(' :: rest3 =>
        let href := rest3.takeWhile (fun c => c ≠ ')')
        let rest4 := rest3.dropWhile (fun c => c ≠ ')')
        if href.isEmpty then none
        else
          match rest4 with
          | ')' :: rest5 => some ((label, href), rest5)
          | _ => none
      | _ => none
  | _ => none

/-- One attempt of the alternation at the current position, in the order
of the source regex: `**` before `__` before `*` before `_` before
backtick before link. -/
def tryTok (cs : List Char) : Option (Tok × List Char) :=
  match matchDouble '*' cs with
  | some (v, rest) => some (Tok.strong v, rest)
  | none =>
  match matchDouble '_' cs with
  | some (v, rest) => some (Tok.strong v, rest)
  | none =>
  match matchSingle '*' cs with
  | some (v, rest) => some (Tok.em v, rest)
  | none =>
  match matchSingle '_' cs with
  | some (v, rest) => some (Tok.em v, rest)
  | none =>
  match matchSingle btick cs with
  | some (v, rest) => some (Tok.code v, rest)
  | none =>
  match matchLink cs with
  | some ((label, href), rest) => some (Tok.link label href, rest)
  | none => none

/-- The `pattern.exec` scan loop: find the leftmost match, emit the
pending plain-text gap and the matched token, continue after the match;
a position with no match contributes one plain-text character.  `fuel`
is an upper bound on the remaining length (every step consumes at least
one character), so the fuel-exhaustion arm is never reached when the
scan starts with `fuel = cs.length`. -/
def tokenizeGo : Nat → List Char → List Char → List Tok
  | _, acc, [] => if acc.isEmpty then [] else [Tok.text acc]
  | 0, acc, rem => if (acc ++ rem).isEmpty then [] else [Tok.text (acc ++ rem)]
  | fuel + 1, acc, c :: rest =>
    match tryTok (c :: rest) with
    | some (t, rest2) =>
      (if acc.isEmpty then [] else [Tok.text acc]) ++ t :: tokenizeGo fuel [] rest2
    | none => tokenizeGo fuel (acc ++ [c]) rest

def tokenize (cs : List Char) : List Tok :=
  tokenizeGo cs.length [] cs

/-- `formatInline(text, depth)`, with the recursion expressed on the
remaining depth budget `fuel = 5 - depth`: the source returns escaped
plain text as soon as `depth > 4` (i.e. when the budget is exhausted)
and recurses with `depth + 1` (budget `fuel - 1`). -/
def formatInlineGo : Nat → List Char → List Char
  | 0, cs => escapeHtmlCore cs
  | fuel + 1, cs =>
    if cs.isEmpty then []
    else
      ((tokenize cs).map (fun tok =>
        match tok with
        | Tok.text v => escapeHtmlCore v
        | Tok.strong v => "<strong>".data ++ formatInlineGo fuel v ++ "</strong>".data
        | Tok.em v => "<em>".data ++ formatInlineGo fuel v ++ "</em>".data
        | Tok.code v => "<code>".data ++ escapeHtmlCore v ++ "</code>".data
        | Tok.link label href =>
          let h := sanitizeUrlCore href
          let l := formatInlineGo fuel label
          let l2 := if l.isEmpty then escapeHtmlCore label else l
          "<a href=\"".data ++ h ++
            "\" target=\"_blank\" rel=\"noopener noreferrer\">".data ++ l2 ++
            "</a>".data)).flatten

def formatInlineCore (cs : List Char) (depth : Nat) : List Char :=
  formatInlineGo (5 - depth) cs

def formatInline (text : String) (depth : Nat) : String :=
  String.mk (formatInlineCore text.data depth)

/-- JS `source.replace(/\r\n/g, "\n")`: left-to-right non-overlapping
replacement of CRLF pairs. -/
def normalizeCRLF : List Char → List Char
  | '\r' :: '\n' :: rest => '\n' :: normalizeCRLF rest
  | c :: rest => c :: normalizeCRLF rest
  | [] => []

/-- JS `normalized.split("\n")` (always returns at least one piece). -/
def splitNL : List Char → List (List Char)
  | [] => [[]]
  | c :: rest =>
    if c = '\n' then [] :: splitNL rest
    else
      match splitNL rest with
      | l :: ls => (c :: l) :: ls
      | [] => [[c]]

inductive LKind where
  | ul
  | ol
deriving DecidableEq

/-- The mutable locals of `markdownToHtml`'s line loop. -/
structure MdState where
  html : List (List Char)
  paragraph : List (List Char)
  listType : Option LKind
  inBlockquote : Bool
  fence : Option (List Char)
  codeLines : List (List Char)

def initState : MdState :=
  { html := [], paragraph := [], listType := none, inBlockquote := false,
    fence := none, codeLines := [] }

def closeParagraph (st : MdState) : MdState :=
  if st.paragraph.isEmpty then st
  else
    { st with
      html := st.html ++
        ["<p>".data ++ formatInlineCore (List.intercalate [' '] st.paragraph) 0 ++ "</p>".data],
      paragraph := [] }

def closeList (st : MdState) : MdState :=
  match st.listType with
  | none => st
  | some k =>
    { st with
      html := st.html ++ [(if k = LKind.ul then "</ul>" else "</ol>").data],
      listType := none }

def closeBlockquote (st : MdState) : MdState :=
  if st.inBlockquote then
    { st with html := st.html ++ ["</blockquote>".data], inBlockquote := false }
  else st

def closeCodeBlock (st : MdState) : MdState :=
  match st.fence with
  | none => st
  | some _ =>
    { st with
      html := st.html ++
        ["<pre><code>".data ++ escapeHtmlCore (List.intercalate ['\n'] st.codeLines) ++
          "</code></pre>".data],
      fence := none, codeLines := [] }

/-- JS `line.replace(/^>\s?/, "")`. -/
def stripQuoteMarker : List Char → List Char
  | '>' :: c :: rest => if jsSpace c then rest else c :: rest
  | '>' :: [] => []
  | l => l

/-- The heading regex `/^(#{1,6})\s+(.*)$/`: one to six hashes followed by
at least one whitespace character; group 2 starts after the maximal
whitespace run (and, per the source, is then `trim()`ed).  With seven or
more hashes no backtracking of `#{1,6}` can reach a whitespace, so the
regex fails. -/
def headingOf (line : List Char) : Option (Nat × List Char) :=
  if 1 ≤ (line.takeWhile (fun c => c = '#')).length ∧
      (line.takeWhile (fun c => c = '#')).length ≤ 6 ∧
      (match (line.dropWhile (fun c => c = '#')).head? with
       | some c => jsSpace c
       | none => false) = true then
    some ((line.takeWhile (fun c => c = '#')).length,
      trimBoth ((line.dropWhile (fun c => c = '#')).dropWhile jsSpace))
  else none

/-- The rule regex `/^(-{3,}|_{3,}|\*{3,})$/` applied to the trimmed
line. -/
def isHr (t : List Char) : Bool :=
  decide (3 ≤ t.length) &&
    (t.all (fun c => c = '-') || t.all (fun c => c = '_') || t.all (fun c => c = '*'))

/-- The unordered-item regex `/^[-*+]\s+(.*)$/` (group 1). -/
def ulItem : List Char → Option (List Char)
  | m :: rest =>
    if (m = '-' ∨ m = '*' ∨ m = '+') ∧
        (match rest.head? with
         | some c => jsSpace c
         | none => false) = true then
      some (rest.dropWhile jsSpace)
    else none
  | [] => none

/-- The ordered-item regex `/^(\d+)\.\s+(.*)$/` (group 2). -/
def olItem (line : List Char) : Option (List Char) :=
  let digits := line.takeWhile Char.isDigit
  let rest := line.dropWhile Char.isDigit
  if digits.isEmpty then none
  else
    match rest with
    | '.' :: rest2 =>
      if (match rest2.head? with
          | some c => jsSpace c
          | none => false) = true then
        some (rest2.dropWhile jsSpace)
      else none
    | _ => none

/-- The body of the `for (const rawLine of lines)` loop of
`markdownToHtml`, in the source's classification order. -/
def processLine (st : MdState) (rawLine : List Char) : MdState :=
  let line := trimTrail rawLine
  match st.fence with
  | some f =>
    if f.isPrefixOf line then closeCodeBlock st
    else { st with codeLines := st.codeLines ++ [rawLine] }
  | none =>
    if "```".data.isPrefixOf line then
      let st1 := closeBlockquote (closeList (closeParagraph st))
      { st1 with fence := some (trimBoth line), codeLines := [] }
    else if (trimBoth line).isEmpty then
      closeBlockquote (closeList (closeParagraph st))
    else if line.head? = some '>' then
      let st1 := closeList (closeParagraph st)
      let st2 :=
        if st1.inBlockquote then st1
        else { st1 with html := st1.html ++ ["<blockquote>".data], inBlockquote := true }
      { st2 with
        html := st2.html ++
          ["<p>".data ++ formatInlineCore (stripQuoteMarker line) 0 ++ "</p>".data] }
    else
      let st1 := closeBlockquote st
      match headingOf line with
      | some (level, content) =>
        let st2 := closeList (closeParagraph st1)
        { st2 with
          html := st2.html ++
            [("<h" ++ toString level ++ ">").data ++ formatInlineCore content 0 ++
              ("</h" ++ toString level ++ ">").data] }
      | none =>
        if isHr (trimBoth line) then
          let st2 := closeList (closeParagraph st1)
          { st2 with html := st2.html ++ ["<hr>".data] }
        else
          match ulItem line with
          | some content =>
            let st2 := closeParagraph st1
            let st3 :=
              if st2.listType = some LKind.ul then st2
              else
                let st2b := closeList st2
                { st2b with html := st2b.html ++ ["<ul>".data], listType := some LKind.ul }
            { st3 with
              html := st3.html ++
                ["<li>".data ++ formatInlineCore content 0 ++ "</li>".data] }
          | none =>
            match olItem line with
            | some content =>
              let st2 := closeParagraph st1
              let st3 :=
                if st2.listType = some LKind.ol then st2
                else
                  let st2b := closeList st2
                  { st2b with html := st2b.html ++ ["<ol>".data], listType := some LKind.ol }
              { st3 with
                html := st3.html ++
                  ["<li>".data ++ formatInlineCore content 0 ++ "</li>".data] }
            | none => { st1 with paragraph := st1.paragraph ++ [line] }

def markdownToHtmlCore (source : List Char) : List Char :=
  let normalized := normalizeCRLF source
  let lines := splitNL normalized
  let st := lines.foldl processLine initState
  let st2 := closeBlockquote (closeList (closeParagraph (closeCodeBlock st)))
  let combined := st2.html.flatten
  if combined.isEmpty then "<p>".data ++ escapeHtmlCore source ++ "</p>".data
  else combined

def markdownToHtml (source : String) : String :=
  String.mk (markdownToHtmlCore source.data)

/-- Result record of `limitMarkdown`. -/
structure LimitResult where
  text : String
  truncated : Bool
deriving DecidableEq

/-- `limitMarkdown(text, maxChars)`.  JS string lengths and `slice` are
modelled on code points; `maxChars <= 0` is modelled as `maxChars = 0`
over `Nat`. -/
def limitMarkdown (text : String) (maxChars : Nat) : LimitResult :=
  if text.length = 0 ∨ maxChars = 0 then
    { text := "", truncated := text.length ≠ 0 }
  else if text.length ≤ maxChars then { text := text, truncated := false }
  else { text := String.mk (trimTrail (text.data.take maxChars)), truncated := true }

def truncNote : String :=
  "<p class=\"reply-truncated\">※ 長文のため一部のみ表示しています。</p>"

def formatReplyCore (raw : List Char) (truncated : Bool) : List Char :=
  "<div class=\"reply-markdown\">".data ++ markdownToHtmlCore raw ++
    (if truncated then truncNote.data else []) ++ "</div>".data

def formatReply (raw : String) (truncated : Bool) : String :=
  String.mk (formatReplyCore raw.data truncated)

/-- The render wrapper as composed in `sendMessage`:
`limitMarkdown` followed by `formatReply`. -/
def render (raw : String) (maxChars : Nat) : String :=
  let r := limitMarkdown raw maxChars
  formatReply r.text r.truncated

/-- JS `a || b` on an optional string (`undefined` or `""` are falsy). -/
def jsOrStr (a : Option String) (b : String) : String :=
  match a with
  | some s => if s = "" then b else s
  | none => b

/-- JS truthiness of an optional string. -/
def jsTruthy (o : Option String) : Bool :=
  match o with
  | some s => s ≠ ""
  | none => false

/-- JS `a || b` where both operands are optional strings. -/
def jsOrOpt (a b : Option String) : Option String :=
  if jsTruthy a then a else b

def prefaceLit : String := "承知いたしました。"

/-- `removeFormalPreface`:
`text.replace(/^承知いたしました。[^\n]*\n?/u, "").trimStart()`.  The
anchored regex removes the preface line (through an optional newline)
when the text starts with the literal; `trimStart` applies in either
case. -/
def removeFormalPreface (text : String) : String :=
  String.mk
    ((if prefaceLit.data.isPrefixOf text.data then
        match (text.data.drop prefaceLit.data.length).dropWhile (fun c => c ≠ '\n') with
        | '\n' :: r => r
        | rest => rest
      else text.data).dropWhile jsSpace)

/-- One conversation-history entry (`{role, text}`). -/
structure Entry where
  role : String
  text : String
deriving DecidableEq

def chatFallbackMessage : String :=
  "回答を取得できませんでした。時間をおいて再試行してください。"

/-- What the success branch of `sendMessage` produces from the parsed
response body: the new conversation history, the HTML put into the
placeholder bubble, and the status-bar message. -/
structure TurnOutcome where
  conversation : List Entry
  displayHtml : String
  statusMessage : String
deriving DecidableEq

/-- The success path of `sendMessage` after `response.json()`
(`data.reply` / `data.notice` as optional strings). -/
def applyReply (conversation : List Entry) (dataReply : Option String)
    (dataNotice : Option String) : TurnOutcome :=
  let rawReply := removeFormalPreface (trimStr (jsOrStr dataReply chatFallbackMessage))
  let r := limitMarkdown rawReply 6000
  let displayHtml := formatReply r.text r.truncated
  let statusMessage := jsOrStr dataNotice "Gemini モデルから回答しました。"
  { conversation := conversation ++ [{ role := "model", text := rawReply }],
    displayHtml := displayHtml,
    statusMessage := statusMessage }

/-! ### Server side: the model-invocation policy (src/server.js) -/

/-- One part of an upstream candidate's content.  Optional fields model
absent JSON members; `functionCallArgs` holds `JSON.stringify` of the
`args` member when it is present and truthy. -/
structure GPart where
  text : Option String
  functionCallName : Option String
  functionCallArgs : Option String
  codeExecOutput : Option String
  inlineDataData : Option String
  inlineDataMime : Option String
  fileDataUri : Option String
  outputAudioData : Bool
deriving DecidableEq

/-- Models `Buffer.from(data, "base64").length` for the size shown in the
inline-data summary. -/
def b64Len (s : String) : Nat :=
  s.length * 3 / 4

/-- The `.map` body of `extractTextFromParts`: the first matching shape
wins; unrecognized parts yield the empty string. -/
def partToText (p : GPart) : String :=
  match p.text with
  | some t => t
  | none =>
  match p.functionCallName with
  | some n =>
    let args := p.functionCallArgs.getD ""
    "関数呼び出し: " ++ n ++ (if args = "" then "" else " " ++ args)
  | none =>
  match p.codeExecOutput with
  | some o => o
  | none =>
  if jsTruthy p.inlineDataData then
    let mime := jsOrStr p.inlineDataMime "application/octet-stream"
    "インラインデータ (" ++ mime ++ ", " ++ toString (b64Len (p.inlineDataData.getD "")) ++ " bytes)"
  else if jsTruthy p.fileDataUri then "ファイル参照: " ++ (p.fileDataUri.getD "")
  else if p.outputAudioData then "音声レスポンスが生成されました。"
  else ""

def strJoinNL (xs : List String) : String :=
  String.mk (List.intercalate ['\n'] (xs.map String.data))

/-- `extractTextFromParts(parts)`: map, drop falsy entries, join with
newlines, trim.  A missing / non-array `parts` yields `""`. -/
def extractTextFromParts (parts : Option (List GPart)) : String :=
  match parts with
  | none => ""
  | some l => trimStr (strJoinNL ((l.map partToText).filter (fun s => s ≠ "")))

/-- One upstream candidate (`candidate?.content?.parts` collapsed to one
optional list, plus `finishReason`). -/
structure Candidate where
  parts : Option (List GPart)
  finishReason : Option String
deriving DecidableEq

structure PromptFeedback where
  blockReason : Option String
deriving DecidableEq

/-- The parsed upstream response body (`result.data`). -/
structure GeminiData where
  candidates : Option (List Candidate)
  promptFeedback : Option PromptFeedback
deriving DecidableEq

def candExtract (c : Candidate) : String :=
  extractTextFromParts c.parts

/-- The `for (const candidate of candidates) ... break` loop: first
candidate whose extracted text is non-empty. -/
def firstReply : List Candidate → Option (String × Candidate)
  | [] => none
  | c :: rest =>
    let r := candExtract c
    if r = "" then firstReply rest else some (r, c)

/-- The response the `/api/chat` handler sends for a structurally
successful upstream result. -/
inductive ChatResponse where
  | success : String → String → ChatResponse
  | failure : Nat → String → String → ChatResponse
deriving DecidableEq

/-- Lines 229-270 of src/server.js: candidate selection and the
empty-reply 502.  `finalNotice` is the notice string computed by the
fallback logic (`notice || ...で応答しました。`). -/
def handleData (data : GeminiData) (finalNotice : String) : ChatResponse :=
  let parts0 := (data.candidates.bind (fun l => l.head?)).bind (fun c => c.parts)
  let candidates := data.candidates.getD []
  match firstReply candidates with
  | some (r, _) => ChatResponse.success r finalNotice
  | none =>
    let reply2 := extractTextFromParts parts0
    let usedCandidate := candidates.head?
    if reply2 = "" then
      let fr := jsOrOpt (usedCandidate.bind (fun c => c.finishReason))
        ((data.promptFeedback.bind (fun p => p.blockReason)))
      ChatResponse.failure 502 "Gemini API から有効な回答を取得できませんでした。"
        (if jsTruthy fr then "生成が停止された理由: " ++ fr.getD ""
         else "レスポンスにテキストが含まれていませんでした。")
    else ChatResponse.success reply2 finalNotice

/-- What `callGemini` returns for one attempt (the `ok`/`status`/
`detail`/`model`/`data` object). -/
structure AttemptResult where
  ok : Bool
  status : Nat
  detail : String
  model : String
  data : Option GeminiData
deriving DecidableEq

/-- Outcome of the fallback protocol in the `/api/chat` handler. -/
structure PolicyResult where
  fallbackCalled : Bool
  result : AttemptResult
  activeModel : String
  notice : Option String
deriving DecidableEq

/-- Lines 197-212 of src/server.js.  `primaryRes` is what
`callGemini(primaryModel, ...)` returned; `fallbackRes` is what
`callGemini(fallbackModel, ...)` would return if invoked, and
`fallbackCalled` records whether that second request is issued. -/
def invokeWithFallback (primaryModel fallbackModel : String)
    (primaryRes fallbackRes : AttemptResult) : PolicyResult :=
  if primaryRes.ok = false ∧ primaryRes.status = 404 ∧ primaryModel ≠ fallbackModel then
    if fallbackRes.ok then
      { fallbackCalled := true, result := fallbackRes, activeModel := fallbackModel,
        notice := some ("指定モデル " ++ primaryModel ++ " が利用できなかったため、" ++
          fallbackModel ++ " で回答しました。") }
    else
      { fallbackCalled := true,
        result :=
          { primaryRes with
            detail := primaryRes.detail ++ ("\nFallback (" ++ fallbackModel ++ ") failed: ") ++
              fallbackRes.detail,
            status := fallbackRes.status },
        activeModel := primaryModel, notice := none }
  else
    { fallbackCalled := false, result := primaryRes, activeModel := primaryModel,
      notice := none }

/-! ### Emission discipline: every model-derived text reaches the output
only through `escapeHtmlCore` (or as the `#` placeholder); everything
else in the output belongs to the fixed, input-independent set of markup
literals below. -/

/-- The complete set of markup strings the renderer emits from its own
code (tag literals, the `#` placeholder, the truncation notice). -/
def trustedLits : List String :=
  ["<strong>", "</strong>", "<em>", "</em>", "<code>", "</code>",
   "<a href=\"", "\" target=\"_blank\" rel=\"noopener noreferrer\">", "</a>", "#",
   "<p>", "</p>", "<ul>", "</ul>", "<ol>", "</ol>", "<li>", "</li>",
   "<blockquote>", "</blockquote>", "<pre><code>", "</code></pre>", "<hr>",
   "<h1>", "</h1>", "<h2>", "</h2>", "<h3>", "</h3>", "<h4>", "</h4>",
   "<h5>", "</h5>", "<h6>", "</h6>",
   "<div class=\"reply-markdown\">", "</div>",
   "<p class=\"reply-truncated\">※ 長文のため一部のみ表示しています。</p>"]

/-- A character sequence is an escaped emission when it is a
concatenation of trusted markup literals and images of the five-character
HTML escaper.  No raw model text can satisfy this predicate unless it
went through `escapeHtmlCore`. -/
inductive EscapedEmission : List Char → Prop where
  | nil : EscapedEmission []
  | lit (s : String) (h : s ∈ trustedLits) : EscapedEmission s.data
  | esc (t : List Char) : EscapedEmission (escapeHtmlCore t)
  | append {a b : List Char} (ha : EscapedEmission a) (hb : EscapedEmission b) :
      EscapedEmission (a ++ b)

/-- Every html chunk accumulated by the block parser is an escaped
emission. -/
def allEE (l : List (List Char)) : Prop :=
  ∀ x ∈ l, EscapedEmission x

/-- State used by the C7 counterexample: an open ``` fence with one
accumulated line. -/
def c7State : MdState :=
  { html := [], paragraph := [], listType := none, inBlockquote := false,
    fence := some "```".data, codeLines := ["a".data] }

/-- A part carrying plain prose text (used by the C6 witness). -/
def pText (t : String) : GPart :=
  { text := some t, functionCallName := none, functionCallArgs := none,
    codeExecOutput := none, inlineDataData := none, inlineDataMime := none,
    fileDataUri := none, outputAudioData := false }

/-- C6 witness data: a first candidate with no extractable text followed
by one with text. -/
def c6DataA : GeminiData :=
  { candidates := some [{ parts := some [], finishReason := none },
                        { parts := some [pText "hi"], finishReason := none }],
    promptFeedback := none }

/-- C6 witness data: no candidate yields text; a finish reason is
supplied. -/
def c6DataB : GeminiData :=
  { candidates := some [{ parts := some [], finishReason := some "SAFETY" }],
    promptFeedback := none }

/-! ### Theorems -/

/-- C5: a second request against the fallback model is issued if and only
if the primary attempt is unsuccessful with status 404 and the fallback
model identifier differs from the primary one; a successful primary, any
other failure status, or equal identifiers never trigger a fallback
request. -/
theorem c5_fallback_iff_404 (pm fm : String) (p f : AttemptResult) :
    (invokeWithFallback pm fm p f).fallbackCalled = true ↔
      (p.ok = false ∧ p.status = 404 ∧ pm ≠ fm) := by
  unfold invokeWithFallback
  by_cases h : p.ok = false ∧ p.status = 404 ∧ pm ≠ fm
  · rw [if_pos h]
    cases hf : f.ok <;> simp [hf, h]
  · rw [if_neg h]
    simp [h]

/-- C4: when the primary attempt fails with 404 (triggering the fallback,
the model identifiers being distinct) and the fallback attempt also
fails, the reported failure keeps `ok = false`, carries the fallback's
status code, and its detail string is the primary detail followed by the
fallback detail. -/
theorem c4_double_failure_detail (pm fm : String) (p f : AttemptResult)
    (hok : p.ok = false) (hst : p.status = 404) (hne : pm ≠ fm) (hf : f.ok = false) :
    (invokeWithFallback pm fm p f).result.ok = false ∧
    (invokeWithFallback pm fm p f).result.status = f.status ∧
    ∃ mid, (invokeWithFallback pm fm p f).result.detail = p.detail ++ mid ++ f.detail := by
  unfold invokeWithFallback
  rw [if_pos ⟨hok, hst, hne⟩, if_neg (by simp [hf])]
  exact ⟨hok, rfl, ("\nFallback (" ++ fm ++ ") failed: "), rfl⟩

theorem c4_double_failure_detail_w :
    (invokeWithFallback "m1" "m2"
        { ok := false, status := 404, detail := "PD", model := "m1", data := none }
        { ok := false, status := 500, detail := "FD", model := "m2", data := none }).result.ok
        = false ∧
    (invokeWithFallback "m1" "m2"
        { ok := false, status := 404, detail := "PD", model := "m1", data := none }
        { ok := false, status := 500, detail := "FD", model := "m2", data := none }).result.status
        = 500 ∧
    ∃ mid, (invokeWithFallback "m1" "m2"
        { ok := false, status := 404, detail := "PD", model := "m1", data := none }
        { ok := false, status := 500, detail := "FD", model := "m2", data := none }).result.detail
        = "PD" ++ mid ++ "FD" :=
  c4_double_failure_detail "m1" "m2" _ _ rfl rfl (by decide) rfl

/-- C8: at any call with depth greater than 4 the inline renderer emits
the input as escaped plain text and performs no further tokenization. -/
theorem c8_depth_cap (text : String) (depth : Nat) (h : depth > 4) :
    formatInline text depth = escapeHtml text := by
  unfold formatInline formatInlineCore escapeHtml
  have h5 : 5 - depth = 0 := by omega
  rw [h5]
  rfl

theorem c8_depth_cap_w :
    5 > 4 ∧ formatInline "**x**" 5 = escapeHtml "**x**" :=
  ⟨by decide, c8_depth_cap "**x**" 5 (by decide)⟩

/-- C3 counterexample: with cap 0 and non-empty input the rendered output
is not an empty fragment — it is the wrapper around an empty paragraph
plus the truncation notice. -/
theorem c3_cex_nonempty_output :
    render "hello" 0 ≠ "" ∧
    render "hello" 0 =
      "<div class=\"reply-markdown\"><p></p><p class=\"reply-truncated\">※ 長文のため一部のみ表示しています。</p></div>" :=
  ⟨by decide, by decide⟩

/-- C3 amended: if the cap is 0 or the raw input is empty, no input text
reaches the output — the rendered fragment is exactly the fixed wrapper
around an empty paragraph, with the truncation notice appended when a
non-empty input was cut away entirely. -/
theorem c3_empty_input_fixed_fragment (raw : String) (maxChars : Nat)
    (h : maxChars = 0 ∨ raw = "") :
    render raw maxChars =
      "<div class=\"reply-markdown\"><p></p>" ++
        (if raw = "" then "" else truncNote) ++ "</div>" := by
  by_cases hr : raw = ""
  · subst hr
    have hrw : render "" maxChars = formatReply "" false := by
      unfold render limitMarkdown
      rw [if_pos (Or.inl (by decide))]
      rfl
    rw [hrw]
    decide
  · have hm : maxChars = 0 := by
      rcases h with hm | hre
      · exact hm
      · exact absurd hre hr
    subst hm
    have hlen : raw.length ≠ 0 := by
      intro h0
      apply hr
      cases raw with
      | mk data =>
        have hd : data = [] := by
          simpa [String.length] using h0
        rw [hd]
    have hrw : render raw 0 = formatReply "" true := by
      unfold render limitMarkdown
      rw [if_pos (Or.inr rfl)]
      rw [decide_eq_true hlen]
    rw [hrw, if_neg hr]
    decide

theorem c3_empty_input_fixed_fragment_w :
    ((0 : Nat) = 0 ∨ "hello" = "") ∧
    render "hello" 0 =
      "<div class=\"reply-markdown\"><p></p>" ++
        (if "hello" = "" then "" else truncNote) ++ "</div>" :=
  ⟨Or.inl rfl, c3_empty_input_fixed_fragment "hello" 0 (Or.inl rfl)⟩

/-- C7 counterexample: a line that merely starts with (but is not equal
to) the recorded opening delimiter still closes the fence, refuting
"closed exactly when the line equals the delimiter". -/
theorem c7_cex_startswith_closes :
    (processLine c7State "```x".data).fence = none ∧
    trimTrail "```x".data ≠ "```".data := ⟨by decide, by decide⟩

/-- C7 amended: while a fence is open, the fence closes exactly when the
trailing-whitespace-stripped line starts with the recorded opening
delimiter, emitting the accumulated content HTML-escaped inside
`<pre><code>` with no inline parsing; any other line is accumulated as
the raw (unstripped) line. -/
theorem c7_fence_line_handling (st : MdState) (f : List Char) (rawLine : List Char)
    (h : st.fence = some f) :
    processLine st rawLine =
      (if f.isPrefixOf (trimTrail rawLine) then
        { st with
          html := st.html ++
            ["<pre><code>".data ++ escapeHtmlCore (List.intercalate ['\n'] st.codeLines) ++
              "</code></pre>".data],
          fence := none, codeLines := [] }
       else { st with codeLines := st.codeLines ++ [rawLine] }) := by
  simp only [processLine, closeCodeBlock, h]

theorem c7_fence_line_handling_w :
    c7State.fence = some "```".data ∧
    processLine c7State "```x".data =
      (if "```".data.isPrefixOf (trimTrail "```x".data) then
        { c7State with
          html := c7State.html ++
            ["<pre><code>".data ++
              escapeHtmlCore (List.intercalate ['\n'] c7State.codeLines) ++
              "</code></pre>".data],
          fence := none, codeLines := [] }
       else { c7State with codeLines := c7State.codeLines ++ ["```x".data] }) :=
  ⟨rfl, c7_fence_line_handling c7State "```".data "```x".data rfl⟩

theorem dropWhile_len_le (p : Char → Bool) (l : List Char) :
    (l.dropWhile p).length ≤ l.length := by
  induction l with
  | nil => exact Nat.le_refl _
  | cons c l ih =>
    rw [List.dropWhile_cons]
    by_cases hc : p c = true
    · rw [if_pos hc]
      exact Nat.le_succ_of_le ih
    · rw [if_neg hc]

theorem trimTrail_length_le (cs : List Char) : (trimTrail cs).length ≤ cs.length := by
  unfold trimTrail
  rw [List.length_reverse]
  calc (cs.reverse.dropWhile jsSpace).length ≤ cs.reverse.length :=
        dropWhile_len_le _ _
    _ = cs.length := List.length_reverse cs

theorem limitMarkdown_text_le (s : String) (maxChars : Nat) :
    (limitMarkdown s maxChars).text.length ≤ maxChars ∨ s.length = 0 ∨ maxChars = 0 := by
  unfold limitMarkdown
  by_cases h0 : s.length = 0 ∨ maxChars = 0
  · right
    exact h0
  · rw [if_neg h0]
    left
    by_cases hle : s.length ≤ maxChars
    · rw [if_pos hle]
      exact hle
    · rw [if_neg hle]
      show (String.mk (trimTrail (s.data.take maxChars))).length ≤ maxChars
      calc (String.mk (trimTrail (s.data.take maxChars))).length
          = (trimTrail (s.data.take maxChars)).length := rfl
        _ ≤ (s.data.take maxChars).length := trimTrail_length_le _
        _ ≤ maxChars := by
            rw [List.length_take]
            exact Nat.min_le_left _ _

/-- C9: the history entry appended for a successful turn is the full
preface-stripped reply, not the capped display text: the stored entry
text is the raw reply before `limitMarkdown`, the displayed HTML is built
from the `limitMarkdown`-capped text, and the capped text never exceeds
6000 characters while the stored entry is unbounded. -/
theorem c9_history_stores_uncapped (conv : List Entry) (r n : Option String) :
    (applyReply conv r n).conversation =
      conv ++ [{ role := "model",
                 text := removeFormalPreface (trimStr (jsOrStr r chatFallbackMessage)) }] ∧
    (applyReply conv r n).displayHtml =
      formatReply
        (limitMarkdown (removeFormalPreface (trimStr (jsOrStr r chatFallbackMessage))) 6000).text
        (limitMarkdown (removeFormalPreface (trimStr (jsOrStr r chatFallbackMessage))) 6000).truncated ∧
    ∀ s : String, (limitMarkdown s 6000).text.length ≤ 6000 := by
  refine ⟨rfl, rfl, ?_⟩
  intro s
  rcases limitMarkdown_text_le s 6000 with h | h | h
  · exact h
  · unfold limitMarkdown
    rw [if_pos (Or.inl h)]
    exact Nat.zero_le _
  · exact absurd h (by decide)

theorem dropWhile_ne_newline_append (rest suffix : List Char) (h : '\n' ∉ rest) :
    (rest ++ '\n' :: suffix).dropWhile (fun c => c ≠ '\n') = '\n' :: suffix := by
  induction rest with
  | nil => simp [List.dropWhile]
  | cons a l ih =>
    have ha : a ≠ '\n' := fun hax => h (hax ▸ List.mem_cons_self a l)
    have hl : '\n' ∉ l := fun hx => h (List.mem_cons_of_mem a hx)
    simpa [List.dropWhile, ha] using ih hl

/-- C10: a reply starting with the formal preface 承知いたしました。 has
that whole leading line (through its newline) removed and the remainder
left-trimmed; a reply not starting with the preface is only
left-trimmed; and `sendMessage` stores and displays exactly this
preface-stripped text, so both can differ from the server's reply
field. -/
theorem c10_preface_removal :
    (∀ rest suffix : List Char, '\n' ∉ rest →
       removeFormalPreface (String.mk (prefaceLit.data ++ (rest ++ '\n' :: suffix))) =
         String.mk (suffix.dropWhile jsSpace)) ∧
    (∀ t : String, ¬ prefaceLit.data.isPrefixOf t.data = true →
       removeFormalPreface t = String.mk (t.data.dropWhile jsSpace)) ∧
    (∀ (conv : List Entry) (r n : Option String),
       (applyReply conv r n).conversation =
         conv ++ [{ role := "model",
                    text := removeFormalPreface (trimStr (jsOrStr r chatFallbackMessage)) }] ∧
       (applyReply conv r n).displayHtml =
         formatReply
           (limitMarkdown (removeFormalPreface (trimStr (jsOrStr r chatFallbackMessage))) 6000).text
           (limitMarkdown (removeFormalPreface (trimStr (jsOrStr r chatFallbackMessage))) 6000).truncated) := by
  refine ⟨?_, ?_, fun conv r n => ⟨rfl, rfl⟩⟩
  · intro rest suffix h
    unfold removeFormalPreface
    have hpre : prefaceLit.data.isPrefixOf (prefaceLit.data ++ (rest ++ '\n' :: suffix)) = true := by
      rw [List.isPrefixOf_iff_prefix]
      exact ⟨rest ++ '\n' :: suffix, rfl⟩
    rw [show (String.mk (prefaceLit.data ++ (rest ++ '\n' :: suffix))).data
          = prefaceLit.data ++ (rest ++ '\n' :: suffix) from rfl]
    rw [if_pos hpre, List.drop_left, dropWhile_ne_newline_append rest suffix h]
    rfl
  · intro t ht
    unfold removeFormalPreface
    rw [if_neg ht]

theorem c10_preface_removal_w :
    ('\n' ∉ " ご質問ありがとうございます。".data) ∧
    removeFormalPreface
        (String.mk (prefaceLit.data ++ (" ご質問ありがとうございます。".data ++ '\n' :: " 本文".data))) =
      String.mk (" 本文".data.dropWhile jsSpace) :=
  ⟨by decide, c10_preface_removal.1 " ご質問ありがとうございます。".data " 本文".data (by decide)⟩

/-- The pattern-match regex test accepts exactly the strings carrying one
of the three scheme prefixes. -/
theorem schemeTest_eq_true_iff (l : List Char) :
    schemeTest l = true ↔
      ("http:".data.isPrefixOf l = true ∨ "https:".data.isPrefixOf l = true ∨
        "mailto:".data.isPrefixOf l = true) := by
  constructor
  · intro h
    unfold schemeTest at h
    split at h
    · left
      simp [List.isPrefixOf]
    · right
      left
      simp [List.isPrefixOf]
    · right
      right
      simp [List.isPrefixOf]
    · exact absurd h (by simp)
  · intro h
    rcases h with h | h | h <;>
      · rw [List.isPrefixOf_iff_prefix] at h
        obtain ⟨t, ht⟩ := h
        rw [← ht]
        rfl

/-- C2: after trimming, a link target is kept (escaped) exactly when it
starts with `http:`, `https:` or `mailto:` case-insensitively; any other
target is replaced by the placeholder `#`.  The third conjunct shows the
anchor emitted by the inline renderer for a `javascript:` link. -/
theorem c2_link_target_sanitized (url : String) :
    ((∃ p ∈ (["http:", "https:", "mailto:"] : List String),
        p.data.isPrefixOf (jsLower (trimBoth url.data)) = true) →
      sanitizeUrl url = String.mk (escapeHtmlCore (trimBoth url.data))) ∧
    ((∀ p ∈ (["http:", "https:", "mailto:"] : List String),
        ¬ p.data.isPrefixOf (jsLower (trimBoth url.data)) = true) →
      sanitizeUrl url = "#") ∧
    formatInline "[go](javascript:x)" 0 =
      "<a href=\"#\" target=\"_blank\" rel=\"noopener noreferrer\">go</a>" := by
  refine ⟨?_, ?_, by decide⟩
  · intro h
    obtain ⟨p, hp, hpre⟩ := h
    have hs : schemeTest (jsLower (trimBoth url.data)) = true := by
      rw [schemeTest_eq_true_iff]
      simp only [List.mem_cons, List.not_mem_nil, or_false] at hp
      rcases hp with rfl | rfl | rfl
      · exact Or.inl hpre
      · exact Or.inr (Or.inl hpre)
      · exact Or.inr (Or.inr hpre)
    unfold sanitizeUrl sanitizeUrlCore
    rw [if_pos hs]
  · intro h
    have hs : schemeTest (jsLower (trimBoth url.data)) = false := by
      by_contra hne
      have ht : schemeTest (jsLower (trimBoth url.data)) = true := by
        cases hb : schemeTest (jsLower (trimBoth url.data))
        · exact absurd hb hne
        · rfl
      rcases (schemeTest_eq_true_iff _).mp ht with hx | hx | hx
      · exact h "http:" (by simp) hx
      · exact h "https:" (by simp) hx
      · exact h "mailto:" (by simp) hx
    unfold sanitizeUrl sanitizeUrlCore
    rw [if_neg (by rw [hs]; exact Bool.false_ne_true)]

theorem c2_link_target_sanitized_w :
    (∃ p ∈ (["http:", "https:", "mailto:"] : List String),
       p.data.isPrefixOf (jsLower (trimBoth "HTTPS://x".data)) = true) ∧
    sanitizeUrl "HTTPS://x" = String.mk (escapeHtmlCore (trimBoth "HTTPS://x".data)) ∧
    sanitizeUrl "javascript:alert(1)" = "#" :=
  ⟨by decide, (c2_link_target_sanitized "HTTPS://x").1 (by decide),
    (c2_link_target_sanitized "javascript:alert(1)").2.1 (by decide)⟩

theorem firstReply_of_find (l : List Candidate) (c : Candidate)
    (h : l.find? (fun x => candExtract x != "") = some c) :
    firstReply l = some (candExtract c, c) := by
  induction l with
  | nil => exact absurd h (by simp)
  | cons a l ih =>
    rw [List.find?_cons] at h
    by_cases ha : candExtract a = ""
    · rw [show (candExtract a != "") = false by simp [ha]] at h
      unfold firstReply
      rw [if_pos ha]
      exact ih h
    · rw [show (candExtract a != "") = true by simp [ha]] at h
      simp only [Option.some.injEq] at h
      subst h
      unfold firstReply
      rw [if_neg ha]

theorem firstReply_none (l : List Candidate) (h : ∀ c ∈ l, candExtract c = "") :
    firstReply l = none := by
  induction l with
  | nil => rfl
  | cons a l ih =>
    unfold firstReply
    rw [if_pos (h a (List.mem_cons_self a l))]
    exact ih (fun c hc => h c (List.mem_cons_of_mem a hc))

theorem extract_parts0_empty (data : GeminiData)
    (h : ∀ c ∈ data.candidates.getD [], candExtract c = "") :
    extractTextFromParts ((data.candidates.bind (fun l => l.head?)).bind (fun c => c.parts))
      = "" := by
  cases hc : data.candidates with
  | none => rfl
  | some l =>
    cases l with
    | nil => rfl
    | cons c0 tl =>
      show extractTextFromParts c0.parts = ""
      have : c0 ∈ data.candidates.getD [] := by
        rw [hc]
        exact List.mem_cons_self c0 tl
      exact h c0 this

/-- C6: for a structurally successful upstream response, the reply is
taken from the first candidate (in upstream order) whose parts yield
non-empty extracted text; when no candidate yields text, the handler
reports a 502 failure whose detail names the finish reason (candidate
`finishReason` falling back to `promptFeedback.blockReason`) when one is
supplied. -/
theorem c6_first_nonempty_candidate :
    (∀ (data : GeminiData) (note : String) (c : Candidate),
       (data.candidates.getD []).find? (fun x => candExtract x != "") = some c →
       handleData data note = ChatResponse.success (candExtract c) note) ∧
    (∀ (data : GeminiData) (note : String),
       (∀ c ∈ data.candidates.getD [], candExtract c = "") →
       handleData data note =
         ChatResponse.failure 502 "Gemini API から有効な回答を取得できませんでした。"
           (if jsTruthy (jsOrOpt ((data.candidates.getD []).head?.bind (fun c => c.finishReason))
               (data.promptFeedback.bind (fun p => p.blockReason))) then
             "生成が停止された理由: " ++
               (jsOrOpt ((data.candidates.getD []).head?.bind (fun c => c.finishReason))
                 (data.promptFeedback.bind (fun p => p.blockReason))).getD ""
            else "レスポンスにテキストが含まれていませんでした。")) := by
  constructor
  · intro data note c h
    simp only [handleData]
    rw [firstReply_of_find _ _ h]
  · intro data note h
    simp only [handleData]
    rw [firstReply_none _ h, extract_parts0_empty data h]
    rfl

theorem c6_first_nonempty_candidate_w :
    ((c6DataA.candidates.getD []).find? (fun x => candExtract x != "") =
       some { parts := some [pText "hi"], finishReason := none } ∧
     handleData c6DataA "ok" =
       ChatResponse.success
         (candExtract { parts := some [pText "hi"], finishReason := none }) "ok") ∧
    ((∀ c ∈ c6DataB.candidates.getD [], candExtract c = "") ∧
     handleData c6DataB "n" =
       ChatResponse.failure 502 "Gemini API から有効な回答を取得できませんでした。"
         (if jsTruthy (jsOrOpt ((c6DataB.candidates.getD []).head?.bind (fun c => c.finishReason))
             (c6DataB.promptFeedback.bind (fun p => p.blockReason))) then
           "生成が停止された理由: " ++
             (jsOrOpt ((c6DataB.candidates.getD []).head?.bind (fun c => c.finishReason))
               (c6DataB.promptFeedback.bind (fun p => p.blockReason))).getD ""
          else "レスポンスにテキストが含まれていませんでした。")) :=
  ⟨⟨by decide, c6_first_nonempty_candidate.1 c6DataA "ok" _ (by decide)⟩,
   ⟨by decide, c6_first_nonempty_candidate.2 c6DataB "n" (by decide)⟩⟩

theorem ee_flatten (l : List (List Char)) (h : ∀ x ∈ l, EscapedEmission x) :
    EscapedEmission l.flatten := by
  induction l with
  | nil => exact EscapedEmission.nil
  | cons a t ih =>
    rw [List.flatten_cons]
    exact EscapedEmission.append (h a (List.mem_cons_self a t))
      (ih (fun x hx => h x (List.mem_cons_of_mem a hx)))

theorem ee_sanitizeUrlCore (u : List Char) : EscapedEmission (sanitizeUrlCore u) := by
  unfold sanitizeUrlCore
  by_cases hs : schemeTest (jsLower (trimBoth u)) = true
  · rw [if_pos hs]
    exact EscapedEmission.esc _
  · rw [if_neg hs]
    exact EscapedEmission.lit "#" (by decide)

theorem ee_formatInlineGo (fuel : Nat) (cs : List Char) :
    EscapedEmission (formatInlineGo fuel cs) := by
  induction fuel generalizing cs with
  | zero => exact EscapedEmission.esc cs
  | succ n ih =>
    simp only [formatInlineGo]
    by_cases he : cs.isEmpty = true
    · rw [if_pos he]
      exact EscapedEmission.nil
    · rw [if_neg he]
      apply ee_flatten
      intro x hx
      rw [List.mem_map] at hx
      obtain ⟨tok, _, rfl⟩ := hx
      cases tok with
      | text v => exact EscapedEmission.esc v
      | strong v =>
        exact EscapedEmission.append
          (EscapedEmission.append (EscapedEmission.lit "<strong>" (by decide)) (ih v))
          (EscapedEmission.lit "</strong>" (by decide))
      | em v =>
        exact EscapedEmission.append
          (EscapedEmission.append (EscapedEmission.lit "<em>" (by decide)) (ih v))
          (EscapedEmission.lit "</em>" (by decide))
      | code v =>
        exact EscapedEmission.append
          (EscapedEmission.append (EscapedEmission.lit "<code>" (by decide))
            (EscapedEmission.esc v))
          (EscapedEmission.lit "</code>" (by decide))
      | link label href =>
        show EscapedEmission ("<a href=\"".data ++ sanitizeUrlCore href ++
          "\" target=\"_blank\" rel=\"noopener noreferrer\">".data ++
          (if (formatInlineGo n label).isEmpty then escapeHtmlCore label
           else formatInlineGo n label) ++ "</a>".data)
        refine EscapedEmission.append
          (EscapedEmission.append
            (EscapedEmission.append
              (EscapedEmission.append (EscapedEmission.lit "<a href=\"" (by decide))
                (ee_sanitizeUrlCore href))
              (EscapedEmission.lit "\" target=\"_blank\" rel=\"noopener noreferrer\">" (by decide)))
            ?_)
          (EscapedEmission.lit "</a>" (by decide))
        by_cases hl : (formatInlineGo n label).isEmpty = true
        · rw [if_pos hl]
          exact EscapedEmission.esc label
        · rw [if_neg hl]
          exact ih label

theorem ee_formatInlineCore (cs : List Char) (depth : Nat) :
    EscapedEmission (formatInlineCore cs depth) :=
  ee_formatInlineGo _ _

theorem allEE_push (l : List (List Char)) (c : List Char) (hl : allEE l)
    (hc : EscapedEmission c) : allEE (l ++ [c]) := by
  intro x hx
  rcases List.mem_append.mp hx with hx | hx
  · exact hl x hx
  · rw [List.mem_singleton] at hx
    subst hx
    exact hc

theorem allEE_closeParagraph (st : MdState) (h : allEE st.html) :
    allEE (closeParagraph st).html := by
  unfold closeParagraph
  by_cases hp : st.paragraph.isEmpty = true
  · rw [if_pos hp]
    exact h
  · rw [if_neg hp]
    exact allEE_push _ _ h
      (EscapedEmission.append
        (EscapedEmission.append (EscapedEmission.lit "<p>" (by decide))
          (ee_formatInlineCore _ 0))
        (EscapedEmission.lit "</p>" (by decide)))

theorem allEE_closeList (st : MdState) (h : allEE st.html) :
    allEE (closeList st).html := by
  unfold closeList
  rcases hl : st.listType with _ | k
  · exact h
  · refine allEE_push _ _ h ?_
    cases k
    · exact EscapedEmission.lit "</ul>" (by decide)
    · exact EscapedEmission.lit "</ol>" (by decide)

theorem allEE_closeBlockquote (st : MdState) (h : allEE st.html) :
    allEE (closeBlockquote st).html := by
  unfold closeBlockquote
  by_cases hb : st.inBlockquote = true
  · rw [if_pos hb]
    exact allEE_push _ _ h (EscapedEmission.lit "</blockquote>" (by decide))
  · rw [if_neg hb]
    exact h

theorem allEE_closeCodeBlock (st : MdState) (h : allEE st.html) :
    allEE (closeCodeBlock st).html := by
  unfold closeCodeBlock
  rcases hf : st.fence with _ | f
  · exact h
  · exact allEE_push _ _ h
      (EscapedEmission.append
        (EscapedEmission.append (EscapedEmission.lit "<pre><code>" (by decide))
          (EscapedEmission.esc _))
        (EscapedEmission.lit "</code></pre>" (by decide)))

theorem allEE_closes (st : MdState) (h : allEE st.html) :
    allEE (closeBlockquote (closeList (closeParagraph st))).html :=
  allEE_closeBlockquote _ (allEE_closeList _ (allEE_closeParagraph _ h))

theorem headingOf_bounds (line : List Char) (level : Nat) (content : List Char)
    (h : headingOf line = some (level, content)) : 1 ≤ level ∧ level ≤ 6 := by
  unfold headingOf at h
  split at h
  · next hcond =>
    simp only [Option.some.injEq, Prod.mk.injEq] at h
    obtain ⟨h1, _⟩ := h
    rw [← h1]
    exact ⟨hcond.1, hcond.2.1⟩
  · exact absurd h (by simp)

theorem ee_headingChunk (level : Nat) (content : List Char)
    (h1 : 1 ≤ level) (h2 : level ≤ 6) :
    EscapedEmission (("<h" ++ toString level ++ ">").data ++ formatInlineCore content 0 ++
      ("</h" ++ toString level ++ ">").data) := by
  interval_cases level
  · show EscapedEmission ("<h1>".data ++ formatInlineCore content 0 ++ "</h1>".data)
    exact EscapedEmission.append
      (EscapedEmission.append (EscapedEmission.lit "<h1>" (by decide)) (ee_formatInlineCore _ 0))
      (EscapedEmission.lit "</h1>" (by decide))
  · show EscapedEmission ("<h2>".data ++ formatInlineCore content 0 ++ "</h2>".data)
    exact EscapedEmission.append
      (EscapedEmission.append (EscapedEmission.lit "<h2>" (by decide)) (ee_formatInlineCore _ 0))
      (EscapedEmission.lit "</h2>" (by decide))
  · show EscapedEmission ("<h3>".data ++ formatInlineCore content 0 ++ "</h3>".data)
    exact EscapedEmission.append
      (EscapedEmission.append (EscapedEmission.lit "<h3>" (by decide)) (ee_formatInlineCore _ 0))
      (EscapedEmission.lit "</h3>" (by decide))
  · show EscapedEmission ("<h4>".data ++ formatInlineCore content 0 ++ "</h4>".data)
    exact EscapedEmission.append
      (EscapedEmission.append (EscapedEmission.lit "<h4>" (by decide)) (ee_formatInlineCore _ 0))
      (EscapedEmission.lit "</h4>" (by decide))
  · show EscapedEmission ("<h5>".data ++ formatInlineCore content 0 ++ "</h5>".data)
    exact EscapedEmission.append
      (EscapedEmission.append (EscapedEmission.lit "<h5>" (by decide)) (ee_formatInlineCore _ 0))
      (EscapedEmission.lit "</h5>" (by decide))
  · show EscapedEmission ("<h6>".data ++ formatInlineCore content 0 ++ "</h6>".data)
    exact EscapedEmission.append
      (EscapedEmission.append (EscapedEmission.lit "<h6>" (by decide)) (ee_formatInlineCore _ 0))
      (EscapedEmission.lit "</h6>" (by decide))

theorem ee_liChunk (content : List Char) :
    EscapedEmission ("<li>".data ++ formatInlineCore content 0 ++ "</li>".data) :=
  EscapedEmission.append
    (EscapedEmission.append (EscapedEmission.lit "<li>" (by decide)) (ee_formatInlineCore _ 0))
    (EscapedEmission.lit "</li>" (by decide))

theorem ee_pChunk (content : List Char) :
    EscapedEmission ("<p>".data ++ formatInlineCore content 0 ++ "</p>".data) :=
  EscapedEmission.append
    (EscapedEmission.append (EscapedEmission.lit "<p>" (by decide)) (ee_formatInlineCore _ 0))
    (EscapedEmission.lit "</p>" (by decide))

theorem allEE_processLine (st : MdState) (raw : List Char) (h : allEE st.html) :
    allEE (processLine st raw).html := by
  simp only [processLine]
  rcases hf : st.fence with _ | f
  all_goals simp only [hf]
  · by_cases h1 : ("```".data.isPrefixOf (trimTrail raw)) = true
    · rw [if_pos h1]
      exact allEE_closes st h
    · rw [if_neg h1]
      by_cases h2 : (trimBoth (trimTrail raw)).isEmpty = true
      · rw [if_pos h2]
        exact allEE_closes st h
      · rw [if_neg h2]
        by_cases h3 : (trimTrail raw).head? = some '>'
        · rw [if_pos h3]
          refine allEE_push _ _ ?_ (ee_pChunk _)
          by_cases hb : (closeList (closeParagraph st)).inBlockquote = true
          · rw [if_pos hb]
            exact allEE_closeList _ (allEE_closeParagraph _ h)
          · rw [if_neg hb]
            exact allEE_push _ _ (allEE_closeList _ (allEE_closeParagraph _ h))
              (EscapedEmission.lit "<blockquote>" (by decide))
        · rw [if_neg h3]
          rcases hh : headingOf (trimTrail raw) with _ | ⟨level, content⟩
          all_goals simp only [hh]
          · by_cases h4 : isHr (trimBoth (trimTrail raw)) = true
            · rw [if_pos h4]
              exact allEE_push _ _
                (allEE_closeList _ (allEE_closeParagraph _ (allEE_closeBlockquote _ h)))
                (EscapedEmission.lit "<hr>" (by decide))
            · rw [if_neg h4]
              rcases hu : ulItem (trimTrail raw) with _ | content2
              all_goals simp only [hu]
              · rcases ho : olItem (trimTrail raw) with _ | content3
                all_goals simp only [ho]
                · exact allEE_closeBlockquote _ h
                · refine allEE_push _ _ ?_ (ee_liChunk content3)
                  by_cases h5 :
                      (closeParagraph (closeBlockquote st)).listType = some LKind.ol
                  · rw [if_pos h5]
                    exact allEE_closeParagraph _ (allEE_closeBlockquote _ h)
                  · rw [if_neg h5]
                    exact allEE_push _ _
                      (allEE_closeList _ (allEE_closeParagraph _ (allEE_closeBlockquote _ h)))
                      (EscapedEmission.lit "<ol>" (by decide))
              · refine allEE_push _ _ ?_ (ee_liChunk content2)
                by_cases h5 :
                    (closeParagraph (closeBlockquote st)).listType = some LKind.ul
                · rw [if_pos h5]
                  exact allEE_closeParagraph _ (allEE_closeBlockquote _ h)
                · rw [if_neg h5]
                  exact allEE_push _ _
                    (allEE_closeList _ (allEE_closeParagraph _ (allEE_closeBlockquote _ h)))
                    (EscapedEmission.lit "<ul>" (by decide))
          · refine allEE_push _ _
              (allEE_closeList _ (allEE_closeParagraph _ (allEE_closeBlockquote _ h))) ?_
            obtain ⟨hb1, hb2⟩ := headingOf_bounds _ _ _ hh
            exact ee_headingChunk level content hb1 hb2
  · by_cases h1 : (f.isPrefixOf (trimTrail raw)) = true
    · rw [if_pos h1]
      exact allEE_closeCodeBlock st h
    · rw [if_neg h1]
      exact h

theorem allEE_foldl (lines : List (List Char)) (st : MdState) (h : allEE st.html) :
    allEE ((lines.foldl processLine st)).html := by
  induction lines generalizing st with
  | nil => exact h
  | cons a t ih =>
    rw [List.foldl_cons]
    exact ih _ (allEE_processLine st a h)

theorem ee_markdownToHtmlCore (source : List Char) :
    EscapedEmission (markdownToHtmlCore source) := by
  simp only [markdownToHtmlCore]
  have hall : allEE (closeBlockquote (closeList (closeParagraph (closeCodeBlock
      ((splitNL (normalizeCRLF source)).foldl processLine initState))))).html :=
    allEE_closeBlockquote _ (allEE_closeList _ (allEE_closeParagraph _
      (allEE_closeCodeBlock _ (allEE_foldl _ initState (fun x hx => nomatch hx)))))
  split
  · exact EscapedEmission.append
      (EscapedEmission.append (EscapedEmission.lit "<p>" (by decide))
        (EscapedEmission.esc source))
      (EscapedEmission.lit "</p>" (by decide))
  · exact ee_flatten _ hall

theorem escapeHtmlCore_no_markup (t : List Char) :
    (escapeHtmlCore t).all
      (fun c => !(c == '<') && !(c == '>') && !(c == quoteChar) && !(c == aposChar)) = true := by
  induction t with
  | nil => rfl
  | cons c l ih =>
    show ((escChar c ++ escapeHtmlCore l).all
      (fun c => !(c == '<') && !(c == '>') && !(c == quoteChar) && !(c == aposChar))) = true
    rw [List.all_append, ih, Bool.and_true]
    unfold escChar
    split_ifs with h1 h2 h3 h4 h5
    · decide
    · decide
    · decide
    · decide
    · decide
    · simp [h2, h3, h4, h5]

/-- C1: every fragment produced by the rendering pipeline (formatReply /
markdownToHtml / formatInline) is a concatenation of fixed markup
literals and images of the five-character HTML escaper: every plain-text
span, code span, link label and code-fence body passes through
`escapeHtmlCore` before emission, and escaped text contains no literal
`<`, `>`, `"` or `'` at all. -/
theorem c1_text_always_escaped :
    (∀ (raw : String) (truncated : Bool), EscapedEmission (formatReply raw truncated).data) ∧
    (∀ source : String, EscapedEmission (markdownToHtml source).data) ∧
    (∀ (text : String) (depth : Nat), EscapedEmission (formatInline text depth).data) ∧
    (∀ t : List Char, (escapeHtmlCore t).all
      (fun c => !(c == '<') && !(c == '>') && !(c == quoteChar) && !(c == aposChar)) = true) := by
  refine ⟨?_, fun s => ee_markdownToHtmlCore s.data,
    fun t d => ee_formatInlineCore t.data d, escapeHtmlCore_no_markup⟩
  intro raw truncated
  show EscapedEmission (formatReplyCore raw.data truncated)
  unfold formatReplyCore
  refine EscapedEmission.append
    (EscapedEmission.append
      (EscapedEmission.append
        (EscapedEmission.lit "<div class=\"reply-markdown\">" (by decide))
        (ee_markdownToHtmlCore _))
      ?_)
    (EscapedEmission.lit "</div>" (by decide))
  by_cases ht : truncated = true
  · rw [if_pos ht]
    exact EscapedEmission.lit truncNote (by decide)
  · rw [if_neg ht]
    exact EscapedEmission.nil

end PSRisk
